import Mathlib

/-!
# zap: writer.go, the AddSync adapter

A shallow embedding of `writer.go` (package `zap`): the interfaces
`WriteFlusher` and `WriteSyncer`, the classifier `AddSync`, the two wrapper
structs `writerWrapper` and `flusherWrapper` with their `Sync` methods, and
the package-level `Discard`.

Go values of interface type `io.Writer` are modelled by the inductive type
`Writer`; method calls are state-passing computations (`Exec`) over a world
made of the state of the underlying sinks and a log of the method calls that
reached a concrete sink.
-/

namespace Zap

/-- One byte of a Go `[]byte`. -/
abbrev Byte := Fin 256

/-- The three method names that occur in `writer.go`. -/
inductive Method where
  | Write
  | Sync
  | Flush
  deriving DecidableEq

/-- A value of a concrete Go type other than the two wrapper structs of this
package, given by its method set. `Write` is always present (the value is an
`io.Writer`); `Sync() error` and `Flush() error` are present or absent. A
method is a transformer of the sink state `σ`; `none` as outcome of a method
stands for a panic inside it. A Go `error` is `Option ε`, with `none` for the
Go `nil` error. -/
structure Concrete (σ ε : Type) where
  write : List Byte → σ → Option ((Int × Option ε) × σ)
  sync : Option (σ → Option (Option ε × σ))
  flush : Option (σ → Option (Option ε × σ))

/-- The values an `io.Writer` interface variable can hold: the nil interface,
a value of some concrete type, `writerWrapper{w}` (writer.go:62-64, one
embedded field of type `io.Writer`) or `flusherWrapper{w}` (writer.go:70-72,
one embedded field of type `WriteFlusher`). -/
inductive Writer (σ ε : Type) where
  | nil
  | concrete (c : Concrete σ ε)
  | writerWrapper (w : Writer σ ε)
  | flusherWrapper (w : Writer σ ε)

/-- The world a call runs in: the state of the underlying sinks and the log
of method calls dispatched to concrete sinks, oldest first. -/
structure World (σ ε : Type) where
  st : σ
  log : List (Concrete σ ε × Method)

/-- Outcome of running a Go call: normal return with a value and the new
world, or a panic. -/
inductive Outcome (σ ε α : Type) where
  | ret (val : α) (world : World σ ε)
  | panic

/-- A Go call as a state-passing computation. -/
abbrev Exec (σ ε α : Type) := World σ ε → Outcome σ ε α

variable {σ ε α β : Type}

/-- The statement `return v`. -/
def Exec.ret (v : α) : Exec σ ε α := fun world => Outcome.ret v world

/-- Sequencing of two calls; a panic of the first ends the run. -/
def Exec.bind (m : Exec σ ε α) (k : α → Exec σ ε β) : Exec σ ε β := fun world =>
  match m world with
  | Outcome.ret a world1 => k a world1
  | Outcome.panic => Outcome.panic

/-- Dispatch of method `m` to the concrete sink `c`: the call is logged and
the method body `body` runs on the sink state. -/
def invoke (c : Concrete σ ε) (m : Method) (body : σ → Option (α × σ)) : Exec σ ε α :=
  fun world =>
    match body world.st with
    | some (a, s) => Outcome.ret a ⟨s, world.log ++ [(c, m)]⟩
    | none => Outcome.panic

/-- Method set of the dynamic type of an interface value. The nil interface
has no dynamic type. `writerWrapper` has the promoted `Write` of its embedded
`io.Writer` and its own `Sync` (writer.go:62-68); `flusherWrapper` has the
promoted `Write` and `Flush` of its embedded `WriteFlusher` and its own
`Sync` (writer.go:70-76). -/
def hasMethod : Writer σ ε → Method → Bool
  | Writer.nil, _ => false
  | Writer.concrete _, Method.Write => true
  | Writer.concrete c, Method.Sync => c.sync.isSome
  | Writer.concrete c, Method.Flush => c.flush.isSome
  | Writer.writerWrapper _, Method.Write => true
  | Writer.writerWrapper _, Method.Sync => true
  | Writer.writerWrapper _, Method.Flush => false
  | Writer.flusherWrapper _, _ => true

/-- Interface `WriteFlusher` (writer.go:32-35): `io.Writer` plus `Flush() error`.
The result says whether a type switch case `WriteFlusher` matches the value. -/
def WriteFlusher (w : Writer σ ε) : Bool :=
  hasMethod w Method.Write && hasMethod w Method.Flush

/-- Interface `WriteSyncer` (writer.go:39-42): `io.Writer` plus `Sync() error`.
The result says whether a type switch case `WriteSyncer` matches the value. -/
def WriteSyncer (w : Writer σ ε) : Bool :=
  hasMethod w Method.Write && hasMethod w Method.Sync

/-- The interface call `w.Write(p)`. On the nil interface it panics; on a
wrapper it is the promoted method of the embedded field. -/
def Write : Writer σ ε → List Byte → Exec σ ε (Int × Option ε)
  | Writer.nil, _ => fun _ => Outcome.panic
  | Writer.concrete c, p => invoke c Method.Write (c.write p)
  | Writer.writerWrapper w, p => Write w p
  | Writer.flusherWrapper w, p => Write w p

/-- The interface call `w.Flush()`. On the nil interface it panics; on a
`flusherWrapper` it is the promoted method of the embedded `WriteFlusher`.
The two branches for values without a `Flush` method are not reachable from
typed Go code and are given the panic outcome. -/
def Flush : Writer σ ε → Exec σ ε (Option ε)
  | Writer.nil => fun _ => Outcome.panic
  | Writer.concrete c =>
    match c.flush with
    | some f => invoke c Method.Flush f
    | none => fun _ => Outcome.panic
  | Writer.writerWrapper _ => fun _ => Outcome.panic
  | Writer.flusherWrapper w => Flush w

/-- Method `func (w writerWrapper) Sync() error` (writer.go:66-68):
`return nil`. The argument is the embedded `io.Writer` of the receiver. -/
def writerWrapper.Sync (_w : Writer σ ε) : Exec σ ε (Option ε) :=
  Exec.ret none

/-- Method `func (f flusherWrapper) Sync() error` (writer.go:74-76):
`return f.Flush()`. The argument is the embedded `WriteFlusher` of the
receiver, on which the promoted `Flush` is called. -/
def flusherWrapper.Sync (f : Writer σ ε) : Exec σ ε (Option ε) :=
  Flush f

/-- The interface call `w.Sync()`. On the nil interface it panics; on the two
wrappers it runs their `Sync` methods. The branch for a concrete value
without a `Sync` method is not reachable from typed Go code. -/
def Sync : Writer σ ε → Exec σ ε (Option ε)
  | Writer.nil => fun _ => Outcome.panic
  | Writer.concrete c =>
    match c.sync with
    | some f => invoke c Method.Sync f
    | none => fun _ => Outcome.panic
  | Writer.writerWrapper w => writerWrapper.Sync w
  | Writer.flusherWrapper w => flusherWrapper.Sync w

/-- The type assertion `w.(WriteSyncer)`: the value itself when its dynamic
type implements the interface, a panic otherwise. -/
def assertWriteSyncer (w : Writer σ ε) : Exec σ ε (Writer σ ε) :=
  if WriteSyncer w then Exec.ret w else fun _ => Outcome.panic

/-- The type assertion `w.(WriteFlusher)`. -/
def assertWriteFlusher (w : Writer σ ε) : Exec σ ε (Writer σ ε) :=
  if WriteFlusher w then Exec.ret w else fun _ => Outcome.panic

/-- Function `AddSync` (writer.go:47-60): a type switch on `w` with the cases
`WriteSyncer`, `WriteFlusher` and `default`, tried in this order. -/
def AddSync (w : Writer σ ε) : Exec σ ε (Writer σ ε) :=
  if WriteSyncer w then
    assertWriteSyncer w
  else if WriteFlusher w then
    Exec.bind (assertWriteFlusher w) (fun f => Exec.ret (Writer.flusherWrapper f))
  else
    Exec.ret (Writer.writerWrapper w)

/-- Modelled from the spec: `ioutil.Discard` of the Go standard library, which
is not part of the sources. The spec describes it as a sink with neither a
commit nor a flush capability whose write always succeeds and retains
nothing; a successful `Write` reports all the bytes of its argument. -/
def ioutilDiscard : Concrete σ ε where
  write := fun p s => some ((Int.ofNat p.length, none), s)
  sync := none
  flush := none

/-- Package variable `Discard` (writer.go:29): `AddSync(ioutil.Discard)`. -/
def Discard : Exec σ ε (Writer σ ε) :=
  AddSync (Writer.concrete ioutilDiscard)

/-- Runs the call `act` the given number of times in sequence and collects
the returned values in call order. -/
def callN (act : Exec σ ε α) : Nat → Exec σ ε (List α)
  | 0 => Exec.ret []
  | n + 1 => Exec.bind act (fun a => Exec.bind (callN act n) (fun rest => Exec.ret (a :: rest)))

/-- Whether the dynamic type of the value is `flusherWrapper`. -/
def isFlusherWrapper : Writer σ ε → Bool
  | Writer.flusherWrapper _ => true
  | _ => false

/-- Whether the dynamic type of the value is `writerWrapper`. -/
def isWriterWrapper : Writer σ ε → Bool
  | Writer.writerWrapper _ => true
  | _ => false

/-! ## Sample sinks, used to evaluate the statements on concrete inputs -/

/-- An in-memory buffer that implements only `Write`: the bytes are appended
to the state. -/
def memBuffer : Concrete (List Byte) Nat where
  write := fun p s => some ((Int.ofNat p.length, none), s ++ p)
  sync := none
  flush := none

/-- A buffered stream that implements `Write` and `Flush`. The state counts
the `Flush` calls made so far; the second `Flush` fails with error `7`. -/
def flakyFlusher : Concrete Nat Nat where
  write := fun p s => some ((Int.ofNat p.length, none), s)
  sync := none
  flush := some (fun s => some (if s = 1 then some 7 else none, s + 1))

/-- A resource that implements `Write`, `Sync` and `Flush`. `Sync` adds 100 to
the state and succeeds; `Flush` adds 1 and fails with error `3`. -/
def nativeSyncer : Concrete Nat Nat where
  write := fun p s => some ((Int.ofNat p.length, none), s)
  sync := some (fun s => some (none, s + 100))
  flush := some (fun s => some (some 3, s + 1))

/-- A closed file: it implements `Write` and `Sync` and has no `Flush`; both
methods fail with error `9` and leave the state as it is. -/
def closedFile : Concrete Nat Nat where
  write := fun _ s => some ((0, some 9), s)
  sync := some (fun s => some (some 9, s))
  flush := none

/-- The world in which no `Flush` has happened yet and nothing is logged. -/
def world0 : World Nat Nat := ⟨0, []⟩

/-- The commit strategy as the spec words it (section 4.1): the native commit
of the sink when it has one, else its flush, else a successful no-op. -/
def specCommit (S : Writer σ ε) : Exec σ ε (Option ε) :=
  if WriteSyncer S then Sync S
  else if WriteFlusher S then Flush S
  else Exec.ret none

/-! ## Classification lemmas -/

theorem addSync_of_syncer (S : Writer σ ε) (h : WriteSyncer S = true) :
    AddSync S = Exec.ret S := by
  simp [AddSync, assertWriteSyncer, h]

theorem addSync_of_flusher (S : Writer σ ε) (hS : WriteSyncer S = false)
    (hF : WriteFlusher S = true) :
    AddSync S = Exec.ret (Writer.flusherWrapper S) := by
  funext world
  simp [AddSync, assertWriteFlusher, hS, hF, Exec.bind, Exec.ret]

theorem addSync_of_neither (S : Writer σ ε) (hS : WriteSyncer S = false)
    (hF : WriteFlusher S = false) :
    AddSync S = Exec.ret (Writer.writerWrapper S) := by
  simp [AddSync, hS, hF]

theorem flusher_only_cases (S : Writer σ ε) (hF : WriteFlusher S = true)
    (hS : WriteSyncer S = false) :
    ∃ c f, S = Writer.concrete c ∧ c.flush = some f ∧ c.sync = none := by
  cases S with
  | nil => simp [WriteFlusher, hasMethod] at hF
  | concrete c =>
    simp only [WriteFlusher, WriteSyncer, hasMethod, Bool.true_and] at hF hS
    obtain ⟨f, hf⟩ := Option.isSome_iff_exists.mp hF
    refine ⟨c, f, rfl, hf, ?_⟩
    cases hc : c.sync with
    | none => rfl
    | some g => simp [hc] at hS
  | writerWrapper w => simp [WriteFlusher, hasMethod] at hF
  | flusherWrapper w => simp [WriteSyncer, hasMethod] at hS

theorem neither_cases (S : Writer σ ε) (hS : WriteSyncer S = false)
    (hF : WriteFlusher S = false) :
    S = Writer.nil ∨ ∃ c, S = Writer.concrete c ∧ c.sync = none ∧ c.flush = none := by
  cases S with
  | nil => exact Or.inl rfl
  | concrete c =>
    simp only [WriteFlusher, WriteSyncer, hasMethod, Bool.true_and] at hF hS
    refine Or.inr ⟨c, rfl, ?_, ?_⟩
    · cases hc : c.sync with
      | none => rfl
      | some g => simp [hc] at hS
    · cases hc : c.flush with
      | none => rfl
      | some g => simp [hc] at hF
  | writerWrapper w => simp [WriteSyncer, hasMethod] at hS
  | flusherWrapper w => simp [WriteSyncer, hasMethod] at hS

theorem ne_flusherWrapper_self (S : Writer σ ε) : S ≠ Writer.flusherWrapper S := by
  induction S with
  | nil => intro h; cases h
  | concrete c => intro h; cases h
  | writerWrapper w _ => intro h; cases h
  | flusherWrapper w ih => intro h; exact ih (Writer.flusherWrapper.inj h)

theorem ne_writerWrapper_self (S : Writer σ ε) : S ≠ Writer.writerWrapper S := by
  induction S with
  | nil => intro h; cases h
  | concrete c => intro h; cases h
  | writerWrapper w ih => intro h; exact ih (Writer.writerWrapper.inj h)
  | flusherWrapper w _ => intro h; cases h

theorem callN_noop (n : Nat) (world : World σ ε) :
    callN (Exec.ret (none : Option ε)) n world
      = Outcome.ret (List.replicate n none) world := by
  induction n with
  | zero => rfl
  | succ k ih =>
    have step : callN (Exec.ret (none : Option ε)) (k + 1) world
        = Exec.bind (callN (Exec.ret (none : Option ε)) k)
            (fun rest => Exec.ret (none :: rest)) world := rfl
    rw [step]
    simp only [Exec.bind, ih]
    rfl

/-! ## The claims -/

/-- C1. For every writer `S` whose dynamic type implements `WriteSyncer`,
`AddSync(S)` returns `S` itself in an unchanged world, so `Sync` called on
the result is `Sync` called on `S`. -/
theorem AddSync_identity (S : Writer σ ε) (h : WriteSyncer S = true)
    (world : World σ ε) :
    AddSync S world = Outcome.ret S world ∧
    Exec.bind (AddSync S) Sync world = Sync S world := by
  have hA := addSync_of_syncer S h
  refine ⟨by rw [hA]; rfl, ?_⟩
  simp only [Exec.bind, hA, Exec.ret]

/-- C1 at the sample resource with a native `Sync`. -/
theorem AddSync_identity_witness :
    WriteSyncer (Writer.concrete nativeSyncer) = true ∧
    AddSync (Writer.concrete nativeSyncer) world0
      = Outcome.ret (Writer.concrete nativeSyncer) world0 ∧
    Exec.bind (AddSync (Writer.concrete nativeSyncer)) Sync world0
      = Sync (Writer.concrete nativeSyncer) world0 :=
  ⟨rfl, AddSync_identity (Writer.concrete nativeSyncer) rfl world0⟩

/-- C2. For every writer `S` that implements `WriteFlusher` but not
`WriteSyncer`, `S` is a concrete sink `c` with a `Flush` method `f`,
`AddSync(S)` is `flusherWrapper{S}`, and each `Sync` call on it runs `f`
once on the current state, returns exactly what `f` returns (a panic of `f`
included) and logs exactly one call, `Flush` on `c`: it is `invoke` of that
method. In particular, when the second `Flush` fails with `E`, the second
`Sync` returns `E`. -/
theorem AddSync_flusher_sync (S : Writer σ ε) (hF : WriteFlusher S = true)
    (hS : WriteSyncer S = false) (world : World σ ε) :
    ∃ c f, S = Writer.concrete c ∧ c.flush = some f ∧
      AddSync S world = Outcome.ret (Writer.flusherWrapper S) world ∧
      (∀ w1 : World σ ε,
        Sync (Writer.flusherWrapper S) w1 = invoke c Method.Flush f w1) ∧
      (∀ (w1 : World σ ε) (e1 : Option ε) (s1 : σ) (E : ε) (s2 : σ),
        f w1.st = some (e1, s1) → f s1 = some (some E, s2) →
        callN (Sync (Writer.flusherWrapper S)) 2 w1 =
          Outcome.ret [e1, some E]
            ⟨s2, w1.log ++ [(c, Method.Flush), (c, Method.Flush)]⟩) := by
  obtain ⟨c, f, rfl, hf, _⟩ := flusher_only_cases S hF hS
  have hcall : ∀ w1 : World σ ε,
      Sync (Writer.flusherWrapper (Writer.concrete c)) w1 = invoke c Method.Flush f w1 := by
    intro w1
    simp only [Sync, flusherWrapper.Sync, Flush, hf]
  refine ⟨c, f, rfl, hf, ?_, hcall, ?_⟩
  · rw [addSync_of_flusher _ hS hF]; rfl
  · intro w1 e1 s1 E s2 h1 h2
    simp only [callN, Exec.bind, Exec.ret, hcall, invoke, h1, h2, List.append_assoc,
      List.singleton_append]

/-- C2 at the sample stream whose second `Flush` fails with error `7`. -/
theorem AddSync_flusher_sync_witness :
    WriteFlusher (Writer.concrete flakyFlusher) = true ∧
    WriteSyncer (Writer.concrete flakyFlusher) = false ∧
    ∃ c f, Writer.concrete flakyFlusher = Writer.concrete c ∧ c.flush = some f ∧
      AddSync (Writer.concrete flakyFlusher) world0
        = Outcome.ret (Writer.flusherWrapper (Writer.concrete flakyFlusher)) world0 ∧
      (∀ w1 : World Nat Nat,
        Sync (Writer.flusherWrapper (Writer.concrete flakyFlusher)) w1
          = invoke c Method.Flush f w1) ∧
      (∀ (w1 : World Nat Nat) (e1 : Option Nat) (s1 : Nat) (E : Nat) (s2 : Nat),
        f w1.st = some (e1, s1) → f s1 = some (some E, s2) →
        callN (Sync (Writer.flusherWrapper (Writer.concrete flakyFlusher))) 2 w1 =
          Outcome.ret [e1, some E]
            ⟨s2, w1.log ++ [(c, Method.Flush), (c, Method.Flush)]⟩) :=
  ⟨rfl, rfl, AddSync_flusher_sync (Writer.concrete flakyFlusher) rfl rfl world0⟩

/-- C3. For every writer `S` that implements neither `WriteSyncer` nor
`WriteFlusher`, `AddSync(S)` is `writerWrapper{S}`, and any number of `Sync`
calls on it return nil each time and leave the world as it was: the state of
`S` is unchanged and no call reached `S`. -/
theorem AddSync_noop_sync (S : Writer σ ε) (hS : WriteSyncer S = false)
    (hF : WriteFlusher S = false) (world : World σ ε) :
    AddSync S world = Outcome.ret (Writer.writerWrapper S) world ∧
    (∀ w1 : World σ ε, Sync (Writer.writerWrapper S) w1 = Outcome.ret none w1) ∧
    (∀ (n : Nat) (w1 : World σ ε),
      callN (Sync (Writer.writerWrapper S)) n w1
        = Outcome.ret (List.replicate n none) w1) := by
  refine ⟨by rw [addSync_of_neither _ hS hF]; rfl, fun _ => rfl, ?_⟩
  intro n w1
  exact callN_noop n w1

/-- C3 at the sample in-memory buffer holding three bytes. -/
theorem AddSync_noop_sync_witness :
    WriteSyncer (Writer.concrete memBuffer) = false ∧
    WriteFlusher (Writer.concrete memBuffer) = false ∧
    AddSync (Writer.concrete memBuffer) ⟨[1, 2, 3], []⟩
      = Outcome.ret (Writer.writerWrapper (Writer.concrete memBuffer)) ⟨[1, 2, 3], []⟩ ∧
    (∀ w1 : World (List Byte) Nat,
      Sync (Writer.writerWrapper (Writer.concrete memBuffer)) w1 = Outcome.ret none w1) ∧
    (∀ (n : Nat) (w1 : World (List Byte) Nat),
      callN (Sync (Writer.writerWrapper (Writer.concrete memBuffer))) n w1
        = Outcome.ret (List.replicate n none) w1) :=
  ⟨rfl, rfl, AddSync_noop_sync (Writer.concrete memBuffer) rfl rfl ⟨[1, 2, 3], []⟩⟩

/-- C4. For every writer `S` (the nil interface included, where both sides
panic) and every byte sequence `data`, `AddSync(S)` returns a value `A` that
is `S`, `flusherWrapper{S}` or `writerWrapper{S}`, and `A.Write(data)` has in
every world the same outcome as `S.Write(data)`: the same byte count and
error, the same sink state and the same calls reaching the sink. -/
theorem AddSync_write_passthrough (S : Writer σ ε) (data : List Byte)
    (world : World σ ε) :
    ∃ A, AddSync S world = Outcome.ret A world ∧
      (A = S ∨ A = Writer.flusherWrapper S ∨ A = Writer.writerWrapper S) ∧
      (∀ w1 : World σ ε, Write A data w1 = Write S data w1) ∧
      Exec.bind (AddSync S) (fun B => Write B data) world = Write S data world := by
  cases hS : WriteSyncer S with
  | true =>
    have hA := addSync_of_syncer S hS
    refine ⟨S, by rw [hA]; rfl, Or.inl rfl, fun _ => rfl, ?_⟩
    simp only [Exec.bind, hA, Exec.ret]
  | false =>
    cases hF : WriteFlusher S with
    | true =>
      have hA := addSync_of_flusher S hS hF
      refine ⟨Writer.flusherWrapper S, by rw [hA]; rfl, Or.inr (Or.inl rfl),
        fun _ => rfl, ?_⟩
      simp only [Exec.bind, hA, Exec.ret, Write]
    | false =>
      have hA := addSync_of_neither S hS hF
      refine ⟨Writer.writerWrapper S, by rw [hA]; rfl, Or.inr (Or.inr rfl),
        fun _ => rfl, ?_⟩
      simp only [Exec.bind, hA, Exec.ret, Write]

/-- C5, as stated, fails. The writer `flusherWrapper{F}`, with `F` the sample
stream that has `Flush` and no `Sync`, implements both `Sync` and `Flush`;
`AddSync` returns it as it is, so the result is a `flusherWrapper`, and
`Sync` on the result goes through the promoted `Flush`: the one call that
reaches the sink is `Flush`. -/
theorem AddSync_priority_counterexample :
    WriteSyncer (Writer.flusherWrapper (Writer.concrete flakyFlusher)) = true ∧
    WriteFlusher (Writer.flusherWrapper (Writer.concrete flakyFlusher)) = true ∧
    AddSync (Writer.flusherWrapper (Writer.concrete flakyFlusher)) world0
      = Outcome.ret (Writer.flusherWrapper (Writer.concrete flakyFlusher)) world0 ∧
    isFlusherWrapper (Writer.flusherWrapper (Writer.concrete flakyFlusher)) = true ∧
    Exec.bind (AddSync (Writer.flusherWrapper (Writer.concrete flakyFlusher))) Sync world0
      = Outcome.ret none ⟨1, [(flakyFlusher, Method.Flush)]⟩ :=
  ⟨rfl, rfl, rfl, rfl, rfl⟩

/-- C5, amended. The classification follows the priority native `Sync`, then
`Flush` delegation, then no-op: every `S` that implements `WriteSyncer`
(with or without `Flush`) is returned as it is; `AddSync(S)` is a new
`flusherWrapper{S}` exactly when `S` has `Flush` and lacks `Sync`, and a new
`writerWrapper{S}` exactly when `S` lacks both; and when `S` implements both
and is not itself a `flusherWrapper`, then `S` is a concrete sink and `Sync`
on the result is the dispatch of its native `Sync`, which logs a `Sync` call
and no `Flush` call. -/
theorem AddSync_priority (S : Writer σ ε) (world : World σ ε) :
    (WriteSyncer S = true → AddSync S world = Outcome.ret S world) ∧
    (AddSync S world = Outcome.ret (Writer.flusherWrapper S) world ↔
      (WriteSyncer S = false ∧ WriteFlusher S = true)) ∧
    (AddSync S world = Outcome.ret (Writer.writerWrapper S) world ↔
      (WriteSyncer S = false ∧ WriteFlusher S = false)) ∧
    (WriteSyncer S = true → WriteFlusher S = true → isFlusherWrapper S = false →
      ∃ c g, S = Writer.concrete c ∧ c.sync = some g ∧
        isFlusherWrapper (Writer.concrete c) = false ∧
        ∀ w1 : World σ ε,
          Exec.bind (AddSync S) Sync w1 = invoke c Method.Sync g w1) := by
  refine ⟨?_, ?_, ?_, ?_⟩
  · intro h
    rw [addSync_of_syncer S h]; rfl
  · constructor
    · intro h
      cases hS : WriteSyncer S with
      | true =>
        rw [addSync_of_syncer S hS] at h
        exact absurd (Outcome.ret.inj h).1 (ne_flusherWrapper_self S)
      | false =>
        cases hF : WriteFlusher S with
        | true => exact ⟨rfl, rfl⟩
        | false =>
          rw [addSync_of_neither S hS hF] at h
          have h2 := (Outcome.ret.inj h).1
          cases h2
    · rintro ⟨hS, hF⟩
      rw [addSync_of_flusher S hS hF]; rfl
  · constructor
    · intro h
      cases hS : WriteSyncer S with
      | true =>
        rw [addSync_of_syncer S hS] at h
        exact absurd (Outcome.ret.inj h).1 (ne_writerWrapper_self S)
      | false =>
        cases hF : WriteFlusher S with
        | true =>
          rw [addSync_of_flusher S hS hF] at h
          have h2 := (Outcome.ret.inj h).1
          cases h2
        | false => exact ⟨rfl, rfl⟩
    · rintro ⟨hS, hF⟩
      rw [addSync_of_neither S hS hF]; rfl
  · intro hS hF hn
    cases S with
    | nil => simp [WriteSyncer, hasMethod] at hS
    | concrete c =>
      simp only [WriteSyncer, hasMethod, Bool.true_and] at hS
      obtain ⟨g, hg⟩ := Option.isSome_iff_exists.mp hS
      refine ⟨c, g, rfl, hg, rfl, ?_⟩
      intro w1
      have hS2 : WriteSyncer (Writer.concrete c) = true := by
        simp [WriteSyncer, hasMethod, hg]
      simp only [Exec.bind, addSync_of_syncer _ hS2, Exec.ret, Sync, hg]
    | writerWrapper w => simp [WriteFlusher, hasMethod] at hF
    | flusherWrapper w => simp [isFlusherWrapper] at hn

/-- C5, amended, at the sample resource that has both `Sync` and `Flush`: it
is returned as it is and `Sync` on the result adds 100 to the state, as its
native `Sync` does, and logs one `Sync` call. -/
theorem AddSync_priority_witness :
    WriteSyncer (Writer.concrete nativeSyncer) = true ∧
    WriteFlusher (Writer.concrete nativeSyncer) = true ∧
    isFlusherWrapper (Writer.concrete nativeSyncer) = false ∧
    AddSync (Writer.concrete nativeSyncer) world0
      = Outcome.ret (Writer.concrete nativeSyncer) world0 ∧
    (∃ c g, Writer.concrete nativeSyncer = Writer.concrete c ∧ c.sync = some g ∧
        isFlusherWrapper (Writer.concrete c) = false ∧
        ∀ w1 : World Nat Nat,
          Exec.bind (AddSync (Writer.concrete nativeSyncer)) Sync w1
            = invoke c Method.Sync g w1) ∧
    Exec.bind (AddSync (Writer.concrete nativeSyncer)) Sync world0
      = Outcome.ret none ⟨100, [(nativeSyncer, Method.Sync)]⟩ :=
  ⟨rfl, rfl, rfl,
    (AddSync_priority (Writer.concrete nativeSyncer) world0).1 rfl,
    (AddSync_priority (Writer.concrete nativeSyncer) world0).2.2.2 rfl rfl rfl,
    rfl⟩

/-- C6, as stated, fails. On the adapter of the sample stream whose second
`Flush` fails, two `Sync` calls in sequence return nil and then error `7`:
the per-call outcome is not the same each time. -/
theorem Sync_repeat_counterexample :
    AddSync (Writer.concrete flakyFlusher) world0
      = Outcome.ret (Writer.flusherWrapper (Writer.concrete flakyFlusher)) world0 ∧
    callN (Sync (Writer.flusherWrapper (Writer.concrete flakyFlusher))) 2 world0
      = Outcome.ret [none, some 7]
          ⟨2, [(flakyFlusher, Method.Flush), (flakyFlusher, Method.Flush)]⟩ ∧
    (none : Option Nat) ≠ some 7 :=
  ⟨rfl, rfl, by decide⟩

/-- C6, amended. For every writer `S`, `AddSync(S)` returns an adapter `A`
whose `Sync` is, in every world, exactly the bound strategy of the spec (the
native `Sync` of `S`, else the `Flush` of `S`, else a nil return), so any
number of `Sync` calls in sequence return call by call what the same calls
of the strategy return, and for a writer with neither method they return nil
every time in an unchanged world. The adapter has no state of its own. -/
theorem Sync_repeat_follows_strategy (S : Writer σ ε) (world : World σ ε) :
    ∃ A, AddSync S world = Outcome.ret A world ∧
      (∀ w1 : World σ ε, Sync A w1 = specCommit S w1) ∧
      (∀ (n : Nat) (w1 : World σ ε),
        callN (Sync A) n w1 = callN (specCommit S) n w1) ∧
      (WriteSyncer S = false → WriteFlusher S = false →
        ∀ (n : Nat) (w1 : World σ ε),
          callN (Sync A) n w1 = Outcome.ret (List.replicate n none) w1) := by
  cases hS : WriteSyncer S with
  | true =>
    have hc : Sync S = specCommit S := by simp [specCommit, hS]
    refine ⟨S, by rw [addSync_of_syncer S hS]; rfl, fun w1 => by rw [hc],
      fun n w1 => by rw [hc], ?_⟩
    intro h; cases h
  | false =>
    cases hF : WriteFlusher S with
    | true =>
      have hc : Sync (Writer.flusherWrapper S) = specCommit S := by
        simp [specCommit, hS, hF, Sync, flusherWrapper.Sync]
      refine ⟨Writer.flusherWrapper S, by rw [addSync_of_flusher S hS hF]; rfl,
        fun w1 => by rw [hc], fun n w1 => by rw [hc], ?_⟩
      intro _ h; cases h
    | false =>
      have hc : Sync (Writer.writerWrapper S) = specCommit S := by
        simp [specCommit, hS, hF, Sync, writerWrapper.Sync]
      refine ⟨Writer.writerWrapper S, by rw [addSync_of_neither S hS hF]; rfl,
        fun w1 => by rw [hc], fun n w1 => by rw [hc], ?_⟩
      intro _ _ n w1
      exact callN_noop n w1

/-- C6, amended, at the sample in-memory buffer, which has neither `Sync`
nor `Flush`. -/
theorem Sync_repeat_follows_strategy_witness :
    WriteSyncer (Writer.concrete memBuffer) = false ∧
    WriteFlusher (Writer.concrete memBuffer) = false ∧
    ∃ A, AddSync (Writer.concrete memBuffer) ⟨[1, 2, 3], []⟩
        = Outcome.ret A ⟨[1, 2, 3], []⟩ ∧
      (∀ w1 : World (List Byte) Nat, Sync A w1 = specCommit (Writer.concrete memBuffer) w1) ∧
      (∀ (n : Nat) (w1 : World (List Byte) Nat),
        callN (Sync A) n w1 = callN (specCommit (Writer.concrete memBuffer)) n w1) ∧
      (∀ (n : Nat) (w1 : World (List Byte) Nat),
          callN (Sync A) n w1 = Outcome.ret (List.replicate n none) w1) :=
  ⟨rfl, rfl,
    (Sync_repeat_follows_strategy (Writer.concrete memBuffer) ⟨[1, 2, 3], []⟩).imp
      (fun _ h => ⟨h.1, h.2.1, h.2.2.1, h.2.2.2 rfl rfl⟩)⟩

/-- C7. For every writer `S`, `AddSync(AddSync(S))` equals `AddSync(S)`: the
value `A` that `AddSync(S)` returns implements `WriteSyncer`, so `AddSync(A)`
returns `A` again and no second wrapper is built. -/
theorem AddSync_idempotent (S : Writer σ ε) (world : World σ ε) :
    Exec.bind (AddSync S) AddSync world = AddSync S world ∧
    ∃ A, AddSync S world = Outcome.ret A world ∧ WriteSyncer A = true ∧
      AddSync A world = Outcome.ret A world := by
  have key : ∃ A, AddSync S world = Outcome.ret A world ∧ WriteSyncer A = true ∧
      AddSync A world = Outcome.ret A world := by
    cases hS : WriteSyncer S with
    | true =>
      have hA := addSync_of_syncer S hS
      exact ⟨S, by rw [hA]; rfl, hS, by rw [hA]; rfl⟩
    | false =>
      cases hF : WriteFlusher S with
      | true =>
        have hW : WriteSyncer (Writer.flusherWrapper S) = true := rfl
        exact ⟨Writer.flusherWrapper S, by rw [addSync_of_flusher S hS hF]; rfl, hW,
          by rw [addSync_of_syncer _ hW]; rfl⟩
      | false =>
        have hW : WriteSyncer (Writer.writerWrapper S) = true := rfl
        exact ⟨Writer.writerWrapper S, by rw [addSync_of_neither S hS hF]; rfl, hW,
          by rw [addSync_of_syncer _ hW]; rfl⟩
  refine ⟨?_, key⟩
  obtain ⟨A, h1, _, h3⟩ := key
  simp only [Exec.bind, h1, h3]

/-- C8. The discard writer has neither `Sync` nor `Flush`, so `Discard` is
the no-op wrapper `writerWrapper{ioutil.Discard}`: its `Sync` returns nil in
an unchanged world, and its `Write` of any byte sequence returns the length
of the sequence and a nil error and leaves the sink state as it was. -/
theorem Discard_noop (world : World σ ε) :
    WriteSyncer (Writer.concrete (ioutilDiscard : Concrete σ ε)) = false ∧
    WriteFlusher (Writer.concrete (ioutilDiscard : Concrete σ ε)) = false ∧
    Discard world = Outcome.ret (Writer.writerWrapper (Writer.concrete ioutilDiscard)) world ∧
    (∀ w1 : World σ ε,
      Sync (Writer.writerWrapper (Writer.concrete ioutilDiscard)) w1
        = Outcome.ret none w1) ∧
    (∀ (n : Nat) (w1 : World σ ε),
      callN (Sync (Writer.writerWrapper (Writer.concrete ioutilDiscard))) n w1
        = Outcome.ret (List.replicate n none) w1) ∧
    (∀ (data : List Byte) (w1 : World σ ε),
      Write (Writer.writerWrapper (Writer.concrete ioutilDiscard)) data w1
        = Outcome.ret (Int.ofNat data.length, none)
            ⟨w1.st, w1.log ++ [(ioutilDiscard, Method.Write)]⟩) :=
  ⟨rfl, rfl, rfl, fun _ => rfl, fun n w1 => callN_noop n w1, fun _ _ => rfl⟩

/-- C9, as stated, fails in its last clause. The sample closed file has a
native `Sync` and no `Flush`; `AddSync` returns it as it is, and `Sync` on
the result fails with error `9` while the one call that reaches the sink is
`Sync`: the failure does not come from a `Sync` that delegates to `Flush`. -/
theorem AddSync_pure_counterexample :
    WriteSyncer (Writer.concrete closedFile) = true ∧
    WriteFlusher (Writer.concrete closedFile) = false ∧
    AddSync (Writer.concrete closedFile) world0
      = Outcome.ret (Writer.concrete closedFile) world0 ∧
    isFlusherWrapper (Writer.concrete closedFile) = false ∧
    Exec.bind (AddSync (Writer.concrete closedFile)) Sync world0
      = Outcome.ret (some 9) ⟨0, [(closedFile, Method.Sync)]⟩ ∧
    (some 9 : Option Nat) ≠ none :=
  ⟨rfl, rfl, rfl, rfl, rfl, by decide⟩

/-- C9, amended. For every writer `S` and every world, the call `AddSync(S)`
returns (it does not panic) a value `A` that implements `WriteSyncer`, in the
same world: the sink state is unchanged and no call reached the sink. A
failure can surface only later, from `Sync` on `A`, which in every world is
the bound strategy of the spec: when `S` has a native `Sync`, `A` is `S` and
the failure is that of the `Sync` of `S`; when `S` has `Flush` only, `A` is
`flusherWrapper{S}` and `Sync` on it is the `Flush` of `S`; when `S` has
neither, `A` is `writerWrapper{S}` and `Sync` on it returns nil in an
unchanged world. -/
theorem AddSync_pure (S : Writer σ ε) (world : World σ ε) :
    ∃ A, AddSync S world = Outcome.ret A world ∧ WriteSyncer A = true ∧
      (∀ w1 : World σ ε, Sync A w1 = specCommit S w1) ∧
      ((WriteSyncer S = true ∧ A = S) ∨
       (WriteSyncer S = false ∧ WriteFlusher S = true ∧
          A = Writer.flusherWrapper S ∧
          ∀ w1 : World σ ε, Sync A w1 = Flush S w1) ∨
       (WriteSyncer S = false ∧ WriteFlusher S = false ∧
          A = Writer.writerWrapper S ∧
          ∀ w1 : World σ ε, Sync A w1 = Outcome.ret none w1)) := by
  cases hS : WriteSyncer S with
  | true =>
    have hc : Sync S = specCommit S := by simp [specCommit, hS]
    exact ⟨S, by rw [addSync_of_syncer S hS]; rfl, hS, fun w1 => by rw [hc],
      Or.inl ⟨rfl, rfl⟩⟩
  | false =>
    cases hF : WriteFlusher S with
    | true =>
      have hc : Sync (Writer.flusherWrapper S) = specCommit S := by
        simp [specCommit, hS, hF, Sync, flusherWrapper.Sync]
      exact ⟨Writer.flusherWrapper S, by rw [addSync_of_flusher S hS hF]; rfl, rfl,
        fun w1 => by rw [hc], Or.inr (Or.inl ⟨rfl, rfl, rfl, fun _ => rfl⟩)⟩
    | false =>
      have hc : Sync (Writer.writerWrapper S) = specCommit S := by
        simp [specCommit, hS, hF, Sync, writerWrapper.Sync]
      exact ⟨Writer.writerWrapper S, by rw [addSync_of_neither S hS hF]; rfl, rfl,
        fun w1 => by rw [hc], Or.inr (Or.inr ⟨rfl, rfl, rfl, fun _ => rfl⟩)⟩

/-- C10. The nil `io.Writer` matches neither case of the type switch, so
`AddSync(nil)` returns `writerWrapper{nil}` without a panic; `Sync` on it
returns nil, and `Write` on it panics for every byte sequence. -/
theorem AddSync_nil (world : World σ ε) :
    WriteSyncer (Writer.nil : Writer σ ε) = false ∧
    WriteFlusher (Writer.nil : Writer σ ε) = false ∧
    AddSync Writer.nil world = Outcome.ret (Writer.writerWrapper Writer.nil) world ∧
    (∀ w1 : World σ ε,
      Sync (Writer.writerWrapper Writer.nil) w1 = Outcome.ret none w1) ∧
    (∀ (data : List Byte) (w1 : World σ ε),
      Write (Writer.writerWrapper (Writer.nil : Writer σ ε)) data w1 = Outcome.panic) :=
  ⟨rfl, rfl, rfl, fun _ => rfl, fun _ _ => rfl⟩

end Zap
